import Mathlib

set_option maxRecDepth 1000000

/-!
Verification development for the semantic-search / AI news-aggregation engine
of the AdvWebApp backend.  The definitions below are shallow embeddings of the
TypeScript source (`src/services/embeddingService.ts`, `src/services/aiService.ts`
and `src/controllers/searchController.ts`):

* JS numbers are modelled as `ℚ`; `Math.sqrt` is modelled by `ratSqrt`, which is
  exact on perfect rational squares (the only values the claims depend on) and
  preserves the sign/zero behaviour of the real square root everywhere.
* JS strings are modelled as `String` / `List Char`; the string-level regex
  operations of the sanitizers are implemented character by character with the
  exact semantics of the regexes in the source.
* Fallible code returns `Except`; thrown `Error` objects are modelled by their
  message (and, for provider errors, an optional numeric `status`).
* The two network providers and the data store are oracles passed in as
  parameters; controller handlers are pure functions from the request data and
  the oracle outcomes to an observable outcome (HTTP status, persisted history
  writes, response payload).
-/

namespace SemSearch

instance {ε α : Type} [DecidableEq ε] [DecidableEq α] : DecidableEq (Except ε α) :=
  fun x y =>
    match x, y with
    | .ok a, .ok b => decidable_of_iff (a = b) (by simp)
    | .error e, .error f => decidable_of_iff (e = f) (by simp)
    | .ok _, .error _ => isFalse (by simp)
    | .error _, .ok _ => isFalse (by simp)

/-! ### Character classes (JS `\s`, control characters, line terminators) -/

/-- Whitespace as matched by JS `String.prototype.trim` and the regex class `\s`. -/
def jsWhitespace (c : Char) : Bool :=
  let n := c.toNat
  n = 0x20 || (0x09 ≤ n && n ≤ 0x0D) || n = 0xA0 || n = 0x1680 ||
    (0x2000 ≤ n && n ≤ 0x200A) || n = 0x2028 || n = 0x2029 ||
    n = 0x202F || n = 0x205F || n = 0x3000 || n = 0xFEFF

/-- Characters matched by the source's control-character class `[\x00-\x1F\x7F-\x9F]`. -/
def isCtrlChar (c : Char) : Bool :=
  c.toNat ≤ 0x1F || (0x7F ≤ c.toNat && c.toNat ≤ 0x9F)

/-- Line terminators, which the regex `.` (no `s` flag) does not match. -/
def lineTerm (c : Char) : Bool :=
  c.toNat = 0x0A || c.toNat = 0x0D || c.toNat = 0x2028 || c.toNat = 0x2029

/-- JS `String.prototype.trim`: drop leading and trailing whitespace. -/
def jsTrim (l : List Char) : List Char :=
  ((l.dropWhile jsWhitespace).reverse.dropWhile jsWhitespace).reverse

/-- Model of `s.replace(/[\x00-\x1F\x7F-\x9F]/g, "")`. -/
def stripCtrl (l : List Char) : List Char :=
  l.filter (fun c => !isCtrlChar c)

/-- Case-insensitive character comparison, for the regex `i` flag. -/
def lowerEq (a b : Char) : Bool := a.toLower = b.toLower

/-- Does `l` start with pattern `p`, case-insensitively? -/
def ciStartsWith : List Char → List Char → Bool
  | _, [] => true
  | [], _ :: _ => false
  | c :: cs, p :: ps => lowerEq c p && ciStartsWith cs ps

/-- Scanning for the lazy `.*?<\/script>` part of the script regex: returns the
text after the first case-insensitive `</script>`, failing if a line terminator
(which `.` cannot match) or the end of the string comes first. -/
def findScriptClose : List Char → Option (List Char)
  | [] => none
  | c :: cs =>
    if ciStartsWith (c :: cs) "</script>".toList then some ((c :: cs).drop 9)
    else if lineTerm c then none
    else findScriptClose cs

/-- Consume the `[^>]*>` part of the script-open regex: text after the first `>`. -/
def afterOpenTag : List Char → Option (List Char)
  | [] => none
  | c :: cs => if c = '>' then some cs else afterOpenTag cs

theorem ciStartsWith_length {l p : List Char} (h : ciStartsWith l p = true) :
    p.length ≤ l.length := by
  induction p generalizing l with
  | nil => simp
  | cons q qs ih =>
    cases l with
    | nil => simp [ciStartsWith] at h
    | cons c cs =>
      rw [ciStartsWith, Bool.and_eq_true] at h
      simpa using Nat.succ_le_succ (ih h.2)

theorem findScriptClose_length {l r : List Char} (h : findScriptClose l = some r) :
    r.length < l.length := by
  induction l with
  | nil => simp [findScriptClose] at h
  | cons c cs ih =>
    rw [findScriptClose] at h
    split at h
    · cases h
      rename_i hci
      have h9 : (9 : Nat) ≤ (c :: cs).length := by
        simpa using ciStartsWith_length hci
      simp only [List.length_drop]
      omega
    · split at h
      · cases h
      · exact Nat.lt_trans (ih h) (by simp)

theorem afterOpenTag_length {l r : List Char} (h : afterOpenTag l = some r) :
    r.length < l.length := by
  induction l with
  | nil => simp [afterOpenTag] at h
  | cons c cs ih =>
    rw [afterOpenTag] at h
    split at h
    · cases h; simp
    · exact Nat.lt_trans (ih h) (by simp)

/-- The text remaining after a whole `<script[^>]*>.*?<\/script>` match
starting at the head of `l` (which is known to start with `<script`):
consume `[^>]*>` and then scan for the close tag. -/
def scriptMatchEnd (l : List Char) : Option (List Char) :=
  match afterOpenTag (l.drop 7) with
  | none => none
  | some afterGt => findScriptClose afterGt

/-- Model of `s.replace(/<script[^>]*>.*?<\/script>/gi, "")`: scan left to
right, remove each non-overlapping match, continue after it.  The `fuel`
argument only drives structural recursion; every step strictly shortens the
text, so `fuel = length` never runs out. -/
def stripScriptTagsGo : Nat → List Char → List Char
  | _, [] => []
  | 0, l => l
  | fuel + 1, c :: cs =>
    if ciStartsWith (c :: cs) "<script".toList then
      match scriptMatchEnd (c :: cs) with
      | some rest => stripScriptTagsGo fuel rest
      | none => c :: stripScriptTagsGo fuel cs
    else c :: stripScriptTagsGo fuel cs

/-- Entry point for the script-block regex replacement. -/
def stripScriptTags (l : List Char) : List Char :=
  stripScriptTagsGo l.length l

/-- Model of `s.replace(/\s+/g, " ")`: collapse each whitespace run to a single
space.  The boolean state records whether the scan is inside a run that has
already emitted its space. -/
def collapseWsAux : Bool → List Char → List Char
  | _, [] => []
  | inRun, c :: cs =>
    if jsWhitespace c then
      if inRun then collapseWsAux true cs else ' ' :: collapseWsAux true cs
    else c :: collapseWsAux false cs

/-- Entry point for the whitespace-collapsing regex replacement. -/
def collapseWs (l : List Char) : List Char := collapseWsAux false l

/-- Locate the text before and after the first `>`, for the tag regex `<[^>]+>`. -/
def splitAtGt : List Char → Option (List Char × List Char)
  | [] => none
  | c :: cs =>
    if c = '>' then some ([], cs)
    else match splitAtGt cs with
      | some p => some (c :: p.1, p.2)
      | none => none

theorem splitAtGt_length {l : List Char} {b r : List Char}
    (h : splitAtGt l = some (b, r)) : r.length < l.length := by
  induction l generalizing b r with
  | nil => simp [splitAtGt] at h
  | cons c cs ih =>
    rw [splitAtGt] at h
    split at h
    · cases h; simp
    · rcases hm : splitAtGt cs with _ | ⟨b2, r2⟩ <;> rw [hm] at h
      · cases h
      · cases h
        exact Nat.lt_trans (ih hm) (by simp)

/-- Model of `s.replace(/<[^>]+>/g, "")`: remove each `<...>` run with a
nonempty body (the regex requires at least one character between the
brackets).  `fuel` drives structural recursion exactly as in
`stripScriptTagsGo`. -/
def stripTagsGo : Nat → List Char → List Char
  | _, [] => []
  | 0, l => l
  | fuel + 1, c :: cs =>
    if c = '<' then
      match splitAtGt cs with
      | some (b, r) =>
        if b = [] then c :: stripTagsGo fuel cs
        else stripTagsGo fuel r
      | none => c :: stripTagsGo fuel cs
    else c :: stripTagsGo fuel cs

/-- Entry point for the tag-stripping regex replacement. -/
def stripTags (l : List Char) : List Char := stripTagsGo l.length l

/-- One global single-character replacement `s.replace(/c/g, rep)`. -/
def replaceChar (c : Char) (rep : List Char) (l : List Char) : List Char :=
  l.flatMap (fun x => if x = c then rep else [x])

/-- The escaping chain of `sanitizeInput`: `&`, `<`, `>`, `"`, the apostrophe, `/`,
replaced in that order (the order used by the source). -/
def escapeHtml (l : List Char) : List Char :=
  replaceChar '/' "&#x2F;".toList
    (replaceChar '\x27' "&#x27;".toList
      (replaceChar '"' "&quot;".toList
        (replaceChar '>' "&gt;".toList
          (replaceChar '<' "&lt;".toList
            (replaceChar '&' "&amp;".toList l)))))

/-! ### The two sanitizers (`aiService.ts`) -/

/-- Strict sanitizer `sanitizeInput` for caller-supplied queries: validation of
the trimmed length, then control-character stripping, script-block and tag
stripping, whitespace collapsing, and HTML escaping, in the source's order. -/
def sanitizeInput (input : String) : Except String String :=
  if input = "" then .error "Invalid input: query must be a non-empty string"
  else
    let sanitized := jsTrim input.toList
    if sanitized.length < 2 then .error "Query too short: minimum 2 characters required"
    else if sanitized.length > 500 then .error "Query too long: maximum 500 characters allowed"
    else
      .ok (String.mk (escapeHtml
        (jsTrim (collapseWs (stripTags (stripScriptTags (stripCtrl sanitized)))))))

/-- Maximum length used by `sanitizeApiText` when the caller does not pass one. -/
def sanitizeApiTextDefaultMax : Nat := 2000

/-- Lenient sanitizer `sanitizeApiText` for provider output: never raises;
empty input maps to the empty string, otherwise trim, truncate to `maxLength`
appending `...` when truncated, strip control characters, strip `<script>`
blocks only, and collapse whitespace. -/
def sanitizeApiText (text : String) (maxLength : Nat) : String :=
  if text = "" then ""
  else
    let t := jsTrim text.toList
    let t := if t.length > maxLength then t.take maxLength ++ "...".toList else t
    String.mk (jsTrim (collapseWs (stripScriptTags (stripCtrl t))))

/-! ### Vector math (`embeddingService.ts`) -/

/-- Exact nonnegative square root of a natural number, when it exists. -/
def natSqrtExact (n : Nat) : Option Nat :=
  (List.range (n + 1)).find? (fun k => k * k = n)

/-- Model of `Math.sqrt` on `ℚ`.  It is exact on perfect rational squares (the
only inputs whose square-root value any claim depends on), and everywhere it
preserves the facts the source relies on: `ratSqrt x = 0` exactly when `x ≤ 0`
(for the zero-norm test), and `ratSqrt x > 0` when `x > 0`. -/
def ratSqrt (x : ℚ) : ℚ :=
  if x ≤ 0 then 0
  else
    match natSqrtExact x.num.toNat, natSqrtExact x.den with
    | some a, some b => (a : ℚ) / (b : ℚ)
    | _, _ => x

/-- Sum of pairwise products, the accumulation loop of `cosineSimilarity`. -/
def dotSum (a b : List ℚ) : ℚ := (List.zipWith (fun x y => x * y) a b).sum

/-- Function `cosineSimilarity(vecA, vecB)` from `embeddingService.ts`: throws when the
lengths differ, returns `0` when either norm is zero, otherwise
`dot / (normA * normB)`. -/
def cosineSimilarity (vecA vecB : List ℚ) : Except String ℚ :=
  if vecA.length ≠ vecB.length then .error "Vectors must have the same length"
  else if ratSqrt (dotSum vecA vecA) = 0 ∨ ratSqrt (dotSum vecB vecB) = 0 then .ok 0
  else .ok (dotSum vecA vecB / (ratSqrt (dotSum vecA vecA) * ratSqrt (dotSum vecB vecB)))

/-! ### Ranking pipeline (`searchController.ts`, `searchPosts` / `searchUsers`) -/

/-- A fetched post or user: an identifier standing for the payload, and the
optionally stored embedding vector. -/
structure Candidate where
  cid : Nat
  embedding : Option (List ℚ)
deriving DecidableEq

/-- A ranked search result: the candidate's payload identifier with the
similarity attached. -/
structure Ranked where
  cid : Nat
  similarity : ℚ
deriving DecidableEq

/-- The body of the `.map` in the ranking pipeline: `null` for a missing or
empty stored vector, otherwise the candidate paired with its similarity
(`cosineSimilarity` may throw). -/
def rankStep (queryEmbedding : List ℚ) (c : Candidate) : Except String (Option Ranked) :=
  match c.embedding with
  | none => .ok none
  | some v =>
    if v.length = 0 then .ok none
    else
      match cosineSimilarity queryEmbedding v with
      | .error e => .error e
      | .ok s => .ok (some ⟨c.cid, s⟩)

/-- JS `Array.prototype.map` where the body may throw: the first exception
aborts the whole map. -/
def mapExcept (f : α → Except ε β) : List α → Except ε (List β)
  | [] => .ok []
  | a :: as =>
    match f a with
    | .error e => .error e
    | .ok b =>
      match mapExcept f as with
      | .error e => .error e
      | .ok bs => .ok (b :: bs)

/-- Descending-by-similarity order used by the sort comparator
`(a, b) => b.similarity - a.similarity`. -/
def simGE (x y : Ranked) : Prop := y.similarity ≤ x.similarity

instance : DecidableRel simGE := fun a b => inferInstanceAs (Decidable (_ ≤ _))

instance : IsTotal Ranked simGE := ⟨fun a b => le_total b.similarity a.similarity⟩

instance : IsTrans Ranked simGE := ⟨fun _ _ _ h1 h2 => le_trans h2 h1⟩

/-- The ranking pipeline shared by `searchPosts` and `searchUsers`:
map to similarities (exceptions propagate), filter out `null`s and entries
below the threshold, stable-sort descending by similarity, truncate to
`limit`.  `List.insertionSort` is a stable sort, as `Array.prototype.sort`
is required to be. -/
def rank (queryEmbedding : List ℚ) (cands : List Candidate) (threshold : ℚ)
    (limit : Nat) : Except String (List Ranked) :=
  match mapExcept (rankStep queryEmbedding) cands with
  | .error e => .error e
  | .ok mapped =>
    let kept := (mapped.filterMap id).filter (fun r => threshold ≤ r.similarity)
    .ok ((List.insertionSort simGE kept).take limit)

/-! ### JSON values and JS truthiness -/

/-- JSON values as produced by `JSON.parse`. -/
inductive Json where
  | null : Json
  | bool : Bool → Json
  | num : ℚ → Json
  | str : String → Json
  | arr : List Json → Json
  | obj : List (String × Json) → Json

/-- Field lookup on a parsed object; `JSON.parse` keeps the last binding of a
duplicated key, so lookup prefers later bindings. -/
def lookupField (fields : List (String × Json)) (key : String) : Option Json :=
  match fields with
  | [] => none
  | (k, v) :: rest =>
    match lookupField rest key with
    | some w => some w
    | none => if k = key then some v else none

/-- JS truthiness of a defined value. -/
def truthy : Json → Bool
  | .null => false
  | .bool b => b
  | .num q => q != 0
  | .str s => s != ""
  | .arr _ => true
  | .obj _ => true

/-- JS truthiness where `none` stands for `undefined`. -/
def truthyOpt : Option Json → Bool
  | none => false
  | some j => truthy j

/-- JS `a || b` on possibly-undefined values. -/
def jsOrOpt (a b : Option Json) : Option Json :=
  if truthyOpt a then a else b

/-- JS `a || d` with a defined fallback. -/
def jsOr (a : Option Json) (d : Json) : Json :=
  match a with
  | some v => if truthy v then v else d
  | none => d

/-- JS property access `j[key]`: defined only on objects; on other defined
non-null values it yields `undefined` (a `null` receiver would throw, which
no claim exercises). -/
def getProp (j : Json) (key : String) : Option Json :=
  match j with
  | .obj fields => lookupField fields key
  | _ => none

/-! ### Substring search (JS `String.prototype.includes`) -/

/-- Does `l` start with `p` (case-sensitively)? -/
def startsWithL : List Char → List Char → Bool
  | _, [] => true
  | [], _ :: _ => false
  | c :: cs, p :: ps => c = p && startsWithL cs ps

/-- Does `hay` contain `pat` as a contiguous substring? -/
def containsSub (hay pat : List Char) : Bool :=
  match hay with
  | [] => startsWithL [] pat
  | _ :: t => startsWithL hay pat || containsSub t pat

/-- JS `s.includes(pat)`. -/
def strIncludes (s pat : String) : Bool := containsSub s.toList pat.toList

/-! ### News response parsing (`aiService.ts`, `searchNews`) -/

/-- The span matched by the greedy regex `/\{[\s\S]*\}/`: from the first
opening brace to the last closing brace, when the former precedes the
latter; otherwise no match. -/
def braceSpan (l : List Char) : Option (List Char) :=
  match List.findIdx? (fun c => c = Char.ofNat 123) l with
  | none => none
  | some i =>
    match List.findIdx? (fun c => c = Char.ofNat 125) l.reverse with
    | none => none
    | some jr =>
      let j := l.length - 1 - jr
      if i < j then some ((l.take (j + 1)).drop i) else none

/-- The check `parsed.f && Array.isArray(parsed.f)`: the value of field `f`
when it is an array. -/
def getArrayField (fields : List (String × Json)) (key : String) : Option (List Json) :=
  match lookupField fields key with
  | some (.arr a) => some a
  | _ => none

/-- The last-resort filter `item && typeof item === "object" && item.title`:
a non-null object value with a truthy `title` property. -/
def hasTruthyTitle (j : Json) : Bool :=
  match j with
  | .obj fields => truthyOpt (lookupField fields "title")
  | _ => false

/-- Resolution of the article list from a parsed value, in the source's order:
the value itself if it is an array, else its `articles`, `results`, or `news`
field when that is an array, else every object value with a truthy title.
(`JSON.parse` on a brace-delimited span yields an object, so the primitive
fallthrough is unreachable and modelled as the empty list.) -/
def resolveArticles (parsed : Json) : List Json :=
  match parsed with
  | .arr l => l
  | .obj fields =>
    match getArrayField fields "articles" with
    | some a => a
    | none =>
      match getArrayField fields "results" with
      | some a => a
      | none =>
        match getArrayField fields "news" with
        | some a => a
        | none => (fields.map Prod.snd).filter hasTruthyTitle
  | _ => []

/-- The JSON-extraction step of `searchNews`, with `JSON.parse` abstracted as
an oracle `parse` (returning `none` on a parse failure): locate the brace
span, parse it, resolve the article list; any failure yields the empty list. -/
def extractArticles (parse : String → Option Json) (outputText : String) : List Json :=
  match braceSpan outputText.toList with
  | none => []
  | some sub =>
    match parse (String.mk sub) with
    | none => []
    | some parsed => resolveArticles parsed

/-! ### Article normalization and sanitization (`searchNews`'s `.map`) -/

/-- The output shape of a news search result.  The source's interface types
every field as a string, but the code places the raw (possibly non-string)
JSON value on `category`, `url` and `publishedDate`, so those are modelled
as `Json`. -/
structure NewsArticle where
  title : String
  summary : String
  relevance : String
  category : Json
  url : Json
  publishedDate : Json
  source : String

/-- Application of `sanitizeApiText` to a raw JSON value: its `typeof` guard returns
the empty string for any non-string (and for a falsy) argument. -/
def sanitizeApiTextJ (j : Json) (maxLength : Nat) : String :=
  match j with
  | .str s => sanitizeApiText s maxLength
  | _ => ""

/-- Field-name normalization `result.f || result.F`. -/
def normVal (r : Json) (k1 k2 : String) : Option Json :=
  jsOrOpt (getProp r k1) (getProp r k2)

/-- The body of the `.map` over extracted articles in `searchNews`: normalize
the field-name casing, substitute defaults, and sanitize title, summary,
relevance and source (`category`, `url` and `publishedDate` are placed on the
output without sanitization).  `now` stands for `new Date().toISOString()`. -/
def normalizeArticle (now : String) (result : Json) : NewsArticle :=
  { title := sanitizeApiTextJ (jsOr (normVal result "title" "Title") (.str "Untitled")) 200
    summary := sanitizeApiTextJ
      (jsOr (normVal result "summary" "Summary") (.str "No summary available")) 1000
    relevance := sanitizeApiTextJ
      (jsOr (normVal result "relevance" "Relevance") (.str "Related to search query")) 500
    category := jsOr (normVal result "category" "Category") (.str "World")
    url := jsOr (normVal result "url" "URL") (.str "")
    publishedDate := jsOr (normVal result "publishedDate" "PublishedDate") (.str now)
    source := sanitizeApiTextJ (jsOr (normVal result "source" "Source") (.str "Unknown")) 100 }

/-! ### `searchNews` and its error taxonomy -/

/-- A thrown JS error as observed by the `catch` blocks: its message, and the
provider's HTTP status when present. -/
structure JsError where
  message : String
  status : Option Nat
deriving DecidableEq

/-- The error mapping of `searchNews`'s `catch` block, in the source's order:
re-throw validation errors, then map model/404 conditions, then 429, then 401,
then fall back to the original message. -/
def mapSearchError (e : JsError) : String :=
  if strIncludes e.message "Invalid input" then e.message
  else if strIncludes e.message "model" || e.status = some 404 then
    "Model not available. Please ensure your OpenAI API key has access to gpt-4o-mini or gpt-4o."
  else if e.status = some 429 then "Rate limit exceeded. Please try again later."
  else if e.status = some 401 then "Invalid API key. Please check your OpenAI API key configuration."
  else if e.message ≠ "" then e.message
  else "Error searching news with OpenAI Web Search"

/-- The `try` body of `searchNews`:  credential check, strict sanitization of
the query, one provider call (an oracle producing either the response's output
text or a thrown error), empty-response check, tolerant extraction, then
normalization/sanitization of each article and truncation to 5. -/
def searchNewsCore (apiKeyConfigured : Bool) (query : String)
    (provider : Except JsError String) (parse : String → Option Json)
    (now : String) : Except JsError (List NewsArticle) :=
  if !apiKeyConfigured then .error ⟨"OpenAI API key not configured", none⟩
  else
    match sanitizeInput query with
    | .error m => .error ⟨m, none⟩
    | .ok _sanitizedQuery =>
      match provider with
      | .error e => .error e
      | .ok outputText =>
        if outputText = "" then .error ⟨"No response from OpenAI Web Search", none⟩
        else
          .ok (((extractArticles parse outputText).map (normalizeArticle now)).take 5)

/-- Behaviour of `searchNews` as observed by callers: the `try` body with every thrown
error passed through the `catch` block's mapping. -/
def searchNews (apiKeyConfigured : Bool) (query : String)
    (provider : Except JsError String) (parse : String → Option Json)
    (now : String) : Except String (List NewsArticle) :=
  match searchNewsCore apiKeyConfigured query provider parse now with
  | .ok r => .ok r
  | .error e => .error (mapSearchError e)

/-! ### `generateEmbedding` (`embeddingService.ts`) -/

/-- Function `generateEmbedding(text)`: credential check, emptiness check, trim and cap
to 8000 characters, one provider call (an oracle from the cleaned text to a
vector or a thrown message); the `catch` block wraps every error — including
the function's own validation errors — in the fixed prefix. -/
def generateEmbedding (apiKeyConfigured : Bool) (text : String)
    (provider : String → Except String (List ℚ)) : Except String (List ℚ) :=
  let body : Except String (List ℚ) :=
    if !apiKeyConfigured then .error "OpenAI API key not configured"
    else if text = "" || jsTrim text.toList = [] then
      .error "Text is required for embedding generation"
    else provider (String.mk ((jsTrim text.toList).take 8000))
  match body with
  | .ok v => .ok v
  | .error m => .error ("Failed to generate embedding: " ++ m)

/-! ### Controller models (`searchController.ts`)

Each handler is a pure function from request data and oracle outcomes to an
observable outcome: the HTTP status it responds with, and the `SearchHistory`
document it saves, if any (`createdAt` is supplied by the store and omitted). -/

/-- A persisted search-history write for the entity searches: the caller, the
stored query string, and the result references `{postId, similarity}`. -/
structure EntityHistoryWrite where
  userId : String
  query : String
  resultRefs : List (Nat × ℚ)
deriving DecidableEq

/-- What the posts handler did: the response status, the history document it
saved (if any), and the ranked results on success. -/
structure EntityOutcome where
  status : Nat
  saved : Option EntityHistoryWrite
  results : Option (List Ranked)

/-- Handler `searchPosts`: auth check, query validation, query embedding, candidate
ranking, history write `{userId, query: query.trim(), results: refs}`, 200
response; any thrown error yields a 500 with no history write. -/
def searchPosts (userId : Option String) (query : Option String)
    (limit : Nat) (threshold : ℚ) (apiKeyConfigured : Bool)
    (embedProvider : String → Except String (List ℚ))
    (posts : List Candidate) : EntityOutcome :=
  match userId with
  | none => ⟨401, none, none⟩
  | some uid =>
    match query with
    | none => ⟨400, none, none⟩
    | some q =>
      if jsTrim q.toList = [] then ⟨400, none, none⟩
      else
        let tq := String.mk (jsTrim q.toList)
        match generateEmbedding apiKeyConfigured tq embedProvider with
        | .error _ => ⟨500, none, none⟩
        | .ok queryEmbedding =>
          match rank queryEmbedding posts threshold limit with
          | .error _ => ⟨500, none, none⟩
          | .ok results =>
            ⟨200, some ⟨uid, tq, results.map (fun r => (r.cid, r.similarity))⟩, some results⟩

/-- Handler `searchUsers`: identical to `searchPosts` except that the handler performs
no history write on any path. -/
def searchUsers (userId : Option String) (query : Option String)
    (limit : Nat) (threshold : ℚ) (apiKeyConfigured : Bool)
    (embedProvider : String → Except String (List ℚ))
    (users : List Candidate) : EntityOutcome :=
  match userId with
  | none => ⟨401, none, none⟩
  | some uid =>
    match query with
    | none => ⟨400, none, none⟩
    | some q =>
      if jsTrim q.toList = [] then ⟨400, none, none⟩
      else
        let tq := String.mk (jsTrim q.toList)
        match generateEmbedding apiKeyConfigured tq embedProvider with
        | .error _ => ⟨500, none, none⟩
        | .ok queryEmbedding =>
          match rank queryEmbedding users threshold limit with
          | .error _ => ⟨500, none, none⟩
          | .ok results => ⟨200, none, some results⟩

/-- A persisted search-history write for the news search: the caller, the
stored query string, and the full article list. -/
structure NewsHistoryWrite where
  userId : String
  query : String
  results : List NewsArticle

/-- What the news handler did. -/
structure NewsOutcome where
  status : Nat
  saved : Option NewsHistoryWrite
  results : Option (List NewsArticle)

/-- Handler `searchNewsController`: auth check, query validation, `searchNews` on the
trimmed query, history write `{userId, query: query.trim(), results}`, 200
response; a thrown error yields a 500 with no history write. -/
def searchNewsController (userId : Option String) (query : Option String)
    (apiKeyConfigured : Bool) (provider : Except JsError String)
    (parse : String → Option Json) (now : String) : NewsOutcome :=
  match userId with
  | none => ⟨401, none, none⟩
  | some uid =>
    match query with
    | none => ⟨400, none, none⟩
    | some q =>
      if jsTrim q.toList = [] then ⟨400, none, none⟩
      else
        let tq := String.mk (jsTrim q.toList)
        match searchNews apiKeyConfigured tq provider parse now with
        | .error _ => ⟨500, none, none⟩
        | .ok results => ⟨200, some ⟨uid, tq, results⟩, some results⟩

/-! ### Specification-side helper definitions -/

/-- The value `cosineSimilarity` returns when it does not throw. -/
def cosValTotal (a b : List ℚ) : ℚ :=
  if ratSqrt (dotSum a a) = 0 ∨ ratSqrt (dotSum b b) = 0 then 0
  else dotSum a b / (ratSqrt (dotSum a a) * ratSqrt (dotSum b b))

/-- The candidates that survive the null/empty-vector filter and the threshold
filter, with their similarities, in original candidate order. -/
def keptOf (queryEmbedding : List ℚ) (cands : List Candidate) (threshold : ℚ) :
    List Ranked :=
  (cands.filterMap (fun c =>
    match c.embedding with
    | none => none
    | some v =>
      if v.length = 0 then none
      else some (⟨c.cid, cosValTotal queryEmbedding v⟩ : Ranked))).filter
    (fun r => threshold ≤ r.similarity)

/-- A string that could have been produced by the lenient sanitizer. -/
def inLenientImage (s : String) : Prop :=
  ∃ t m, sanitizeApiText t m = s

/-- A JSON value that is the string output of the lenient sanitizer. -/
def inLenientImageJ (j : Json) : Prop :=
  ∃ t m, j = .str (sanitizeApiText t m)

/-! ## Supporting lemmas -/

theorem natSqrtExact_some {n k : Nat} (h : natSqrtExact n = some k) : k * k = n := by
  have := List.find?_some h
  exact of_decide_eq_true this

theorem dotSum_self_nonneg (a : List ℚ) : 0 ≤ dotSum a a := by
  induction a with
  | nil => simp [dotSum]
  | cons x xs ih =>
    have : dotSum (x :: xs) (x :: xs) = x * x + dotSum xs xs := by
      simp [dotSum]
    rw [this]
    exact add_nonneg (mul_self_nonneg x) ih

theorem ratSqrt_eq_zero_iff (x : ℚ) : ratSqrt x = 0 ↔ x ≤ 0 := by
  constructor
  · intro h
    by_contra hx
    push_neg at hx
    rw [ratSqrt, if_neg (not_le.mpr hx)] at h
    rcases hn : natSqrtExact x.num.toNat with _ | a <;>
      rcases hd : natSqrtExact x.den with _ | b <;>
      rw [hn, hd] at h
    · exact absurd h (ne_of_gt hx)
    · exact absurd h (ne_of_gt hx)
    · exact absurd h (ne_of_gt hx)
    · have ha := natSqrtExact_some hn
      have hb := natSqrtExact_some hd
      have hnum : 0 < x.num := Rat.num_pos.mpr hx
      have ha0 : a ≠ 0 := by
        intro h0
        rw [h0] at ha
        simp at ha
        omega
      have hb0 : b ≠ 0 := by
        intro h0
        rw [h0] at hb
        have := x.den_pos
        simp at hb
        omega
      rcases div_eq_zero_iff.mp h with h1 | h1
      · exact ha0 (Nat.cast_eq_zero.mp h1)
      · exact hb0 (Nat.cast_eq_zero.mp h1)
  · intro h
    rw [ratSqrt, if_pos h]

theorem ratSqrt_eval (n k : Nat) (h : natSqrtExact n = some k) (hn : 0 < n) :
    ratSqrt (n : ℚ) = k := by
  have hpos : (0 : ℚ) < n := by exact_mod_cast hn
  rw [ratSqrt, if_neg (not_le.mpr hpos)]
  have hnum : ((n : ℚ)).num.toNat = n := by
    rw [Rat.num_natCast]
    exact Int.toNat_natCast n
  have hden : ((n : ℚ)).den = 1 := Rat.den_natCast n
  rw [hnum, hden, h]
  have h1 : natSqrtExact 1 = some 1 := by decide
  rw [h1]
  simp

theorem cosineSimilarity_mismatch {a b : List ℚ} (h : a.length ≠ b.length) :
    cosineSimilarity a b = .error "Vectors must have the same length" := by
  rw [cosineSimilarity, if_pos h]

theorem cosineSimilarity_ok {a b : List ℚ} (h : a.length = b.length) :
    cosineSimilarity a b = .ok (cosValTotal a b) := by
  rw [cosineSimilarity, if_neg (by simpa using h), cosValTotal]
  by_cases hz : ratSqrt (dotSum a a) = 0 ∨ ratSqrt (dotSum b b) = 0
  · rw [if_pos hz, if_pos hz]
  · rw [if_neg hz, if_neg hz]

theorem rankStep_ok {qe : List ℚ} {c : Candidate}
    (h : ∀ v, c.embedding = some v → v.length ≠ 0 → v.length = qe.length) :
    rankStep qe c = .ok (match c.embedding with
      | none => none
      | some v =>
        if v.length = 0 then none
        else some (⟨c.cid, cosValTotal qe v⟩ : Ranked)) := by
  rw [rankStep]
  rcases hv : c.embedding with _ | v
  · rfl
  · by_cases h0 : v.length = 0
    · simp [h0]
    · have hlen : v.length = qe.length := h v hv h0
      simp [h0, cosineSimilarity_ok hlen.symm]

theorem mapExcept_eq_ok_map {α β ε : Type} {f : α → Except ε β} (g : α → β)
    {l : List α} (hg : ∀ a ∈ l, f a = .ok (g a)) :
    mapExcept f l = .ok (l.map g) := by
  induction l with
  | nil => rfl
  | cons a as ih =>
    rw [mapExcept, hg a (by simp), ih (fun x hx => hg x (by simp [hx]))]
    rfl

theorem rank_ok_of_matching {qe : List ℚ} {cands : List Candidate} (t : ℚ) (lim : Nat)
    (hall : ∀ c ∈ cands, ∀ v, c.embedding = some v → v.length ≠ 0 → v.length = qe.length) :
    rank qe cands t lim = .ok ((List.insertionSort simGE (keptOf qe cands t)).take lim) := by
  have hm := mapExcept_eq_ok_map (fun c =>
    match c.embedding with
    | none => none
    | some v =>
      if v.length = 0 then none
      else some (⟨c.cid, cosValTotal qe v⟩ : Ranked))
    (fun c hc => rankStep_ok (hall c hc))
  simp only [rank, hm, keptOf, List.filterMap_map, Function.id_comp]

theorem mem_jsTrim {l : List Char} {x : Char} (h : x ∈ jsTrim l) : x ∈ l := by
  rw [jsTrim] at h
  rw [List.mem_reverse] at h
  have h1 := (List.dropWhile_sublist jsWhitespace).subset h
  rw [List.mem_reverse] at h1
  exact (List.dropWhile_sublist jsWhitespace).subset h1

theorem afterOpenTag_sublist {l r : List Char} (h : afterOpenTag l = some r) :
    List.Sublist r l := by
  induction l with
  | nil => simp [afterOpenTag] at h
  | cons c cs ih =>
    rw [afterOpenTag] at h
    split at h
    · cases h
      exact List.sublist_cons_self _ _
    · exact (ih h).trans (List.sublist_cons_self c cs)

theorem findScriptClose_sublist {l r : List Char} (h : findScriptClose l = some r) :
    List.Sublist r l := by
  induction l with
  | nil => simp [findScriptClose] at h
  | cons c cs ih =>
    rw [findScriptClose] at h
    split at h
    · cases h
      exact List.drop_sublist 9 (c :: cs)
    · split at h
      · cases h
      · exact (ih h).trans (List.sublist_cons_self c cs)

theorem scriptMatchEnd_sublist {l r : List Char} (h : scriptMatchEnd l = some r) :
    List.Sublist r l := by
  rw [scriptMatchEnd] at h
  rcases hA : afterOpenTag (l.drop 7) with _ | afterGt <;> rw [hA] at h
  · cases h
  · exact ((findScriptClose_sublist h).trans (afterOpenTag_sublist hA)).trans
      (List.drop_sublist 7 l)

theorem mem_stripScriptTagsGo {fuel : Nat} {l : List Char} {x : Char}
    (h : x ∈ stripScriptTagsGo fuel l) : x ∈ l := by
  induction fuel generalizing l with
  | zero =>
    cases l with
    | nil => simpa [stripScriptTagsGo] using h
    | cons c cs => simpa [stripScriptTagsGo] using h
  | succ fuel ih =>
    cases l with
    | nil => simpa [stripScriptTagsGo] using h
    | cons c cs =>
      rw [stripScriptTagsGo] at h
      split at h
      · rcases hS : scriptMatchEnd (c :: cs) with _ | rest <;> rw [hS] at h
        · have h2 : x ∈ c :: stripScriptTagsGo fuel cs := h
          rcases List.mem_cons.mp h2 with h3 | h3
          · simp [h3]
          · exact List.mem_cons_of_mem c (ih h3)
        · have h2 : x ∈ stripScriptTagsGo fuel rest := h
          exact (scriptMatchEnd_sublist hS).subset (ih h2)
      · rcases List.mem_cons.mp h with h3 | h3
        · simp [h3]
        · exact List.mem_cons_of_mem c (ih h3)

theorem mem_collapseWsAux {b : Bool} {l : List Char} {x : Char}
    (h : x ∈ collapseWsAux b l) : x ∈ l ∨ x = ' ' := by
  induction l generalizing b with
  | nil => simp [collapseWsAux] at h
  | cons c cs ih =>
    rw [collapseWsAux] at h
    split at h
    · split at h
      · rcases ih h with h1 | h1
        · exact Or.inl (List.mem_cons_of_mem c h1)
        · exact Or.inr h1
      · rcases List.mem_cons.mp h with h1 | h1
        · exact Or.inr h1
        · rcases ih h1 with h2 | h2
          · exact Or.inl (List.mem_cons_of_mem c h2)
          · exact Or.inr h2
    · rcases List.mem_cons.mp h with h1 | h1
      · exact Or.inl (by simp [h1])
      · rcases ih h1 with h2 | h2
        · exact Or.inl (List.mem_cons_of_mem c h2)
        · exact Or.inr h2

theorem lenientClean_no_ctrl {l : List Char} {c : Char}
    (h : c ∈ jsTrim (collapseWs (stripScriptTags (stripCtrl l)))) :
    isCtrlChar c = false := by
  have h1 := mem_jsTrim h
  rw [collapseWs] at h1
  rcases mem_collapseWsAux h1 with h2 | h2
  · rw [stripScriptTags] at h2
    have h3 := mem_stripScriptTagsGo h2
    have h4 := List.of_mem_filter h3
    simpa using h4
  · rw [h2]
    decide

theorem sanitizeApiText_no_ctrl {t : String} {m : Nat} {c : Char}
    (h : c ∈ (sanitizeApiText t m).toList) : isCtrlChar c = false := by
  rw [sanitizeApiText] at h
  split at h
  · simp at h
  · exact lenientClean_no_ctrl h

theorem sanitizeApiTextJ_inImage (j : Json) (m : Nat) :
    inLenientImage (sanitizeApiTextJ j m) := by
  cases j with
  | str s => exact ⟨s, m, rfl⟩
  | null => exact ⟨"", m, rfl⟩
  | bool b => exact ⟨"", m, rfl⟩
  | num q => exact ⟨"", m, rfl⟩
  | arr l => exact ⟨"", m, rfl⟩
  | obj f => exact ⟨"", m, rfl⟩

theorem pair_sublist_of_mem {α : Type} {a b : α} {s : List α}
    (ha : a ∈ s) (hb : b ∈ s) (hne : a ≠ b) :
    List.Sublist [a, b] s ∨ List.Sublist [b, a] s := by
  induction s with
  | nil => simp at ha
  | cons x xs ih =>
    rcases List.mem_cons.mp ha with h1 | h1
    · subst h1
      have hbx : b ∈ xs := by
        rcases List.mem_cons.mp hb with h2 | h2
        · exact absurd h2.symm hne
        · exact h2
      exact Or.inl (List.Sublist.cons₂ a (List.singleton_sublist.mpr hbx))
    · rcases List.mem_cons.mp hb with h2 | h2
      · subst h2
        exact Or.inr (List.Sublist.cons₂ b (List.singleton_sublist.mpr h1))
      · rcases ih h1 h2 with h3 | h3
        · exact Or.inl (h3.cons x)
        · exact Or.inr (h3.cons x)

theorem pair_sublist_antisymm {α : Type} {a b : α} {s : List α}
    (hne : a ≠ b) (hs : s.Nodup)
    (hab : List.Sublist [a, b] s) (hba : List.Sublist [b, a] s) : False := by
  induction s with
  | nil => cases hab
  | cons x xs ih =>
    have hx : ¬x ∈ xs := (List.nodup_cons.mp hs).1
    have hxs : xs.Nodup := (List.nodup_cons.mp hs).2
    cases hab with
    | cons _ h1 =>
      cases hba with
      | cons _ h2 => exact ih hxs h1 h2
      | cons₂ h2 =>
        exact hx (h1.subset (by simp))
    | cons₂ h1 =>
      cases hba with
      | cons _ h2 =>
        exact hx (h2.subset (by simp))
      | cons₂ h2 => exact hne rfl

theorem keptOf_cids_sublist (qe : List ℚ) (cands : List Candidate) (t : ℚ) :
    List.Sublist ((keptOf qe cands t).map Ranked.cid) (cands.map Candidate.cid) := by
  rw [keptOf]
  refine ((List.filter_sublist _).map Ranked.cid).trans ?_
  induction cands with
  | nil => simp
  | cons c cs ih =>
    rw [List.filterMap_cons]
    rcases hv : c.embedding with _ | v
    · exact ih.trans ((List.map Candidate.cid cs).sublist_cons_self c.cid)
    · by_cases h0 : v.length = 0
      · simp only [h0, if_pos]
        exact ih.trans ((List.map Candidate.cid cs).sublist_cons_self c.cid)
      · simp only [if_neg h0]
        rw [List.map_cons]
        exact List.Sublist.cons₂ _ ih

theorem rankStep_error_msg {qe : List ℚ} {c : Candidate} {e : String}
    (h : rankStep qe c = .error e) : e = "Vectors must have the same length" := by
  rw [rankStep] at h
  split at h
  · cases h
  · split at h
    · cases h
    · split at h
      · rename_i hc
        cases h
        rw [cosineSimilarity] at hc
        split at hc
        · cases hc
          rfl
        · split at hc <;> cases hc
      · cases h

theorem mapExcept_error_mem {α β ε : Type} {f : α → Except ε β} {l : List α}
    {a : α} {e : ε} (ha : a ∈ l) (he : f a = .error e)
    (hall : ∀ x ∈ l, ∀ e', f x = .error e' → e' = e) :
    mapExcept f l = .error e := by
  induction l with
  | nil => simp at ha
  | cons x xs ih =>
    rw [mapExcept]
    rcases hx : f x with m | b
    · rw [hall x (by simp) m hx]
    · rcases List.mem_cons.mp ha with h1 | h1
      · rw [← h1] at hx
        rw [he] at hx
        cases hx
      · rw [ih h1 (fun y hy => hall y (by simp [hy]))]

/-! ## Claims -/

/-- C2: `cosineSimilarity(a, b)` fails with the dimension-mismatch error
whenever `length(a) != length(b)`, before any numeric work and regardless of
content; when the lengths match and either vector's L2 norm is exactly zero
(equivalently, either sum of squares is zero) it returns `0`, not an error;
otherwise it returns `dot(a,b) / (normA * normB)`.  It is a pure function of
its two arguments. -/
theorem claim_C2_theorem :
    (∀ a b : List ℚ, a.length ≠ b.length →
      cosineSimilarity a b = .error "Vectors must have the same length") ∧
    (∀ a b : List ℚ, a.length = b.length →
      ((ratSqrt (dotSum a a) = 0 ∨ ratSqrt (dotSum b b) = 0) ↔
        (dotSum a a = 0 ∨ dotSum b b = 0)) ∧
      ((ratSqrt (dotSum a a) = 0 ∨ ratSqrt (dotSum b b) = 0) →
        cosineSimilarity a b = .ok 0) ∧
      (¬(ratSqrt (dotSum a a) = 0 ∨ ratSqrt (dotSum b b) = 0) →
        cosineSimilarity a b =
          .ok (dotSum a b / (ratSqrt (dotSum a a) * ratSqrt (dotSum b b))))) := by
  refine ⟨fun a b h => cosineSimilarity_mismatch h, fun a b h => ⟨?_, ?_, ?_⟩⟩
  · rw [ratSqrt_eq_zero_iff, ratSqrt_eq_zero_iff]
    have ha := dotSum_self_nonneg a
    have hb := dotSum_self_nonneg b
    constructor
    · rintro (h1 | h1)
      · exact Or.inl (le_antisymm h1 ha)
      · exact Or.inr (le_antisymm h1 hb)
    · rintro (h1 | h1)
      · exact Or.inl (le_of_eq h1)
      · exact Or.inr (le_of_eq h1)
  · intro hz
    rw [cosineSimilarity, if_neg (by simpa using h)]
    simp only [if_pos hz]
  · intro hz
    rw [cosineSimilarity, if_neg (by simpa using h)]
    simp only [if_neg hz]

theorem claim_C2_witness :
    cosineSimilarity [(1 : ℚ), 2] [1] = .error "Vectors must have the same length" ∧
    cosineSimilarity [(0 : ℚ), 0, 0] [1, 2, 3] = .ok 0 ∧
    cosineSimilarity [(3 : ℚ), 4] [3, 4] = .ok 1 := by
  refine ⟨claim_C2_theorem.1 _ _ (by decide), ?_, ?_⟩
  · apply (claim_C2_theorem.2 [(0 : ℚ), 0, 0] [1, 2, 3] (by decide)).2.1
    left
    rw [ratSqrt_eq_zero_iff]
    norm_num [dotSum]
  · have h25 : dotSum [(3 : ℚ), 4] [3, 4] = 25 := by norm_num [dotSum]
    have hs : ratSqrt (dotSum [(3 : ℚ), 4] [3, 4]) = 5 := by
      rw [h25, show (25 : ℚ) = ((25 : Nat) : ℚ) by norm_num,
        ratSqrt_eval 25 5 (by decide) (by decide)]
      norm_num
    have hne : ¬(ratSqrt (dotSum [(3 : ℚ), 4] [3, 4]) = 0 ∨
        ratSqrt (dotSum [(3 : ℚ), 4] [3, 4]) = 0) := by
      rw [hs]; norm_num
    rw [(claim_C2_theorem.2 [(3 : ℚ), 4] [3, 4] (by decide)).2.2 hne, hs, h25]
    norm_num

/-- C9: every error thrown by `generateEmbedding` — the missing-credential and
empty-text validation failures included, not only provider failures — carries
the prefix `Failed to generate embedding: ` followed by the underlying
message, so callers can distinguish the failure kinds only by message text. -/
theorem claim_C9_theorem :
    (∀ (k : Bool) (text : String) (provider : String → Except String (List ℚ)) (e : String),
      generateEmbedding k text provider = .error e →
      ∃ m, e = "Failed to generate embedding: " ++ m) ∧
    (∀ (text : String) (provider : String → Except String (List ℚ)),
      generateEmbedding false text provider =
        .error "Failed to generate embedding: OpenAI API key not configured") ∧
    (∀ (text : String) (provider : String → Except String (List ℚ)),
      jsTrim text.toList = [] →
      generateEmbedding true text provider =
        .error "Failed to generate embedding: Text is required for embedding generation") ∧
    (∀ (text : String) (provider : String → Except String (List ℚ)) (m : String),
      jsTrim text.toList ≠ [] →
      provider (String.mk ((jsTrim text.toList).take 8000)) = .error m →
      generateEmbedding true text provider =
        .error ("Failed to generate embedding: " ++ m)) := by
  have hne : ∀ text : String, jsTrim text.toList ≠ [] → (text = "") = False := by
    intro text h
    simp only [eq_iff_iff, iff_false]
    intro h0
    rw [h0] at h
    exact h rfl
  refine ⟨?_, ?_, ?_, ?_⟩
  · intro k text provider e h
    rw [generateEmbedding] at h
    cases k with
    | false =>
      simp only [Bool.not_false, if_pos] at h
      exact ⟨_, (Except.error.injEq _ _).mp h |>.symm⟩
    | true =>
      simp only [Bool.not_true, Bool.false_eq_true, if_false] at h
      by_cases h1 : (text = "" || jsTrim text.toList = List.nil : Prop)
      · rw [if_pos h1] at h
        exact ⟨_, (Except.error.injEq _ _).mp h |>.symm⟩
      · rw [if_neg h1] at h
        rcases hp : provider (String.mk ((jsTrim text.toList).take 8000)) with m | v <;>
          rw [hp] at h
        · exact ⟨_, (Except.error.injEq _ _).mp h |>.symm⟩
        · cases h
  · intro text provider
    rfl
  · intro text provider h
    have h2 : jsTrim text.data = [] := h
    simp [generateEmbedding, h2]
  · intro text provider m h hp
    have h2 : jsTrim text.data ≠ [] := h
    have h3 : provider (String.mk ((jsTrim text.data).take 8000)) = .error m := hp
    simp [generateEmbedding, h2, h3, hne text h]

theorem claim_C9_witness :
    generateEmbedding false "hello" (fun _ => .ok [1]) =
      .error "Failed to generate embedding: OpenAI API key not configured" ∧
    generateEmbedding true "   " (fun _ => .ok [1]) =
      .error "Failed to generate embedding: Text is required for embedding generation" ∧
    generateEmbedding true "hello" (fun _ => .error "boom") =
      .error "Failed to generate embedding: boom" ∧
    (∃ m, "Failed to generate embedding: boom" = "Failed to generate embedding: " ++ m) := by
  refine ⟨claim_C9_theorem.2.1 _ _, claim_C9_theorem.2.2.1 _ _ (by decide), ?_, ?_⟩
  · exact claim_C9_theorem.2.2.2 _ _ "boom" (by decide) rfl
  · exact claim_C9_theorem.1 true "hello" (fun _ => .error "boom") _
      (claim_C9_theorem.2.2.2 _ _ "boom" (by decide) rfl)

/-- C10: the strict sanitizer checks its 2–500 length bounds on the trimmed
raw input, before tag stripping and escaping; consequently an input made of
markup only (`"<b>"`, trimmed length 3) passes validation and sanitizes to the
empty string, and an input of 101 ampersands (trimmed length 101) passes
validation and sanitizes to a 505-character string, exceeding 500. -/
theorem claim_C10_theorem :
    (∀ s : String, s ≠ "" → (jsTrim s.toList).length < 2 →
      sanitizeInput s = .error "Query too short: minimum 2 characters required") ∧
    (∀ s : String, s ≠ "" → 2 ≤ (jsTrim s.toList).length → (jsTrim s.toList).length > 500 →
      sanitizeInput s = .error "Query too long: maximum 500 characters allowed") ∧
    (∀ s : String, s ≠ "" → 2 ≤ (jsTrim s.toList).length → (jsTrim s.toList).length ≤ 500 →
      sanitizeInput s = .ok (String.mk (escapeHtml (jsTrim (collapseWs (stripTags
        (stripScriptTags (stripCtrl (jsTrim s.toList))))))))) ∧
    sanitizeInput "<b>" = .ok "" ∧
    ((sanitizeInput (String.mk (List.replicate 101 (Char.ofNat 38)))).map String.length
      = .ok 505 ∧ 500 < 505) := by
  refine ⟨?_, ?_, ?_, by decide, by decide, by norm_num⟩
  · intro s hs h
    rw [sanitizeInput, if_neg hs, if_pos h]
  · intro s hs h2 h500
    rw [sanitizeInput, if_neg hs, if_neg (by omega), if_pos h500]
  · intro s hs h2 h500
    rw [sanitizeInput, if_neg hs, if_neg (by omega), if_neg (by omega)]

theorem claim_C10_witness :
    sanitizeInput "a" = .error "Query too short: minimum 2 characters required" ∧
    sanitizeInput "hi" = .ok "hi" := by
  refine ⟨claim_C10_theorem.1 "a" (by decide) (by decide), ?_⟩
  rw [claim_C10_theorem.2.2.1 "hi" (by decide) (by decide) (by decide)]
  decide

/-- C8 (amended): the news search surfaces provider failures as stable mapped
messages, with the mappings applied in the source's order: messages containing
`Invalid input` are re-thrown unchanged; then a message containing `model` or a
404 status maps to `Model not available`; then 429 maps to `Rate limit
exceeded`; then 401 maps to `Invalid API key`.  In particular a 401 whose
message does not mention `model` yields `Invalid API key`, a plain 429 yields
`Rate limit exceeded`, and a 404 or `model` message yields
`Model not available`. -/
theorem claim_C8_theorem :
    (∀ e : JsError, strIncludes e.message "Invalid input" = false →
      (strIncludes e.message "model" = true ∨ e.status = some 404) →
      mapSearchError e =
        "Model not available. Please ensure your OpenAI API key has access to gpt-4o-mini or gpt-4o." ∧
      strIncludes (mapSearchError e) "Model not available" = true) ∧
    (∀ e : JsError, strIncludes e.message "Invalid input" = false →
      strIncludes e.message "model" = false → e.status = some 429 →
      mapSearchError e = "Rate limit exceeded. Please try again later." ∧
      strIncludes (mapSearchError e) "Rate limit exceeded" = true) ∧
    (∀ e : JsError, strIncludes e.message "Invalid input" = false →
      strIncludes e.message "model" = false → e.status = some 401 →
      mapSearchError e = "Invalid API key. Please check your OpenAI API key configuration." ∧
      strIncludes (mapSearchError e) "Invalid API key" = true) ∧
    (∀ (q sq : String) (e : JsError) (parse : String → Option Json) (now : String),
      sanitizeInput q = .ok sq →
      searchNews true q (.error e) parse now = .error (mapSearchError e)) := by
  refine ⟨?_, ?_, ?_, ?_⟩
  · intro e h1 h2
    rw [mapSearchError, if_neg (by simp [h1])]
    rw [if_pos (by rcases h2 with h2 | h2 <;> simp [h2])]
    exact ⟨rfl, by decide⟩
  · intro e h1 h2 h3
    rw [mapSearchError, if_neg (by simp [h1]), if_neg (by simp [h2, h3]),
      if_pos (by simp [h3])]
    exact ⟨rfl, by decide⟩
  · intro e h1 h2 h3
    rw [mapSearchError, if_neg (by simp [h1]), if_neg (by simp [h2, h3]),
      if_neg (by simp [h3]), if_pos (by simp [h3])]
    exact ⟨rfl, by decide⟩
  · intro q sq e parse now hq
    rw [searchNews, searchNewsCore]
    simp only [Bool.not_true, Bool.false_eq_true, if_false, hq]

theorem claim_C8_witness :
    mapSearchError ⟨"bad", some 401⟩ =
      "Invalid API key. Please check your OpenAI API key configuration." ∧
    mapSearchError ⟨"too many requests", some 429⟩ =
      "Rate limit exceeded. Please try again later." ∧
    mapSearchError ⟨"gone", some 404⟩ =
      "Model not available. Please ensure your OpenAI API key has access to gpt-4o-mini or gpt-4o." ∧
    searchNews true "hello" (.error ⟨"bad", some 401⟩) (fun _ => none) "t" =
      .error "Invalid API key. Please check your OpenAI API key configuration." := by
  refine ⟨(claim_C8_theorem.2.2.1 _ (by decide) (by decide) rfl).1,
    (claim_C8_theorem.2.1 _ (by decide) (by decide) rfl).1,
    (claim_C8_theorem.1 _ (by decide) (Or.inr rfl)).1, ?_⟩
  rw [claim_C8_theorem.2.2.2 "hello" "hello" _ _ "t" (by decide)]
  rw [(claim_C8_theorem.2.2.1 _ (by decide) (by decide) rfl).1]

/-- C8 counterexample: the claim says every 401 yields a message containing
`Invalid API key`, but a 401 whose message mentions `model` is mapped to
`Model not available` because the model mapping is applied first. -/
theorem claim_C8_counterexample :
    mapSearchError ⟨"The model gpt-4o-mini is unavailable", some 401⟩ =
      "Model not available. Please ensure your OpenAI API key has access to gpt-4o-mini or gpt-4o." ∧
    strIncludes (mapSearchError ⟨"The model gpt-4o-mini is unavailable", some 401⟩)
      "Invalid API key" = false := by decide

/-- C4: article extraction takes the widest opening-to-closing brace span; a
missing span or a parse failure yields the empty list without raising; a
successful parse resolves the article list by trying, in order: the value
itself if an array, its `articles`, `results`, `news` fields when arrays, and
finally every object value with a (truthy) title field; `not json at all`
yields the empty list. -/
theorem claim_C4_theorem :
    (∀ (parse : String → Option Json) (raw : String),
      braceSpan raw.toList = none → extractArticles parse raw = []) ∧
    (∀ (parse : String → Option Json) (raw : String) (sub : List Char),
      braceSpan raw.toList = some sub →
      parse (String.mk sub) = none → extractArticles parse raw = []) ∧
    (∀ (parse : String → Option Json) (raw : String) (sub : List Char) (j : Json),
      braceSpan raw.toList = some sub →
      parse (String.mk sub) = some j →
      extractArticles parse raw = resolveArticles j) ∧
    (∀ l : List Json, resolveArticles (.arr l) = l) ∧
    (∀ (fields : List (String × Json)) (a : List Json),
      getArrayField fields "articles" = some a → resolveArticles (.obj fields) = a) ∧
    (∀ (fields : List (String × Json)) (a : List Json),
      getArrayField fields "articles" = none →
      getArrayField fields "results" = some a → resolveArticles (.obj fields) = a) ∧
    (∀ (fields : List (String × Json)) (a : List Json),
      getArrayField fields "articles" = none →
      getArrayField fields "results" = none →
      getArrayField fields "news" = some a → resolveArticles (.obj fields) = a) ∧
    (∀ fields : List (String × Json),
      getArrayField fields "articles" = none →
      getArrayField fields "results" = none → getArrayField fields "news" = none →
      resolveArticles (.obj fields) = (fields.map Prod.snd).filter hasTruthyTitle) ∧
    (∀ parse : String → Option Json, extractArticles parse "not json at all" = []) := by
  refine ⟨?_, ?_, ?_, fun l => rfl, ?_, ?_, ?_, ?_, ?_⟩
  · intro parse raw h
    rw [extractArticles, h]
  · intro parse raw sub h hp
    simp only [extractArticles, h, hp]
  · intro parse raw sub j h hp
    simp only [extractArticles, h, hp]
  · intro fields a h
    rw [resolveArticles, h]
  · intro fields a h1 h2
    rw [resolveArticles, h1, h2]
  · intro fields a h1 h2 h3
    rw [resolveArticles, h1, h2, h3]
  · intro fields h1 h2 h3
    rw [resolveArticles, h1, h2, h3]
  · intro parse
    rw [extractArticles, show braceSpan ("not json at all").toList = none from by decide]

theorem claim_C4_witness :
    extractArticles (fun _ => some (.obj [("articles", .arr [.str "A", .str "B"])]))
      "x\x7b\x7dy" = [.str "A", .str "B"] ∧
    extractArticles (fun _ => none) "x\x7b\x7dy" = [] ∧
    extractArticles (fun _ => some (.arr [])) "not json at all" = [] := by
  refine ⟨?_, ?_, claim_C4_theorem.2.2.2.2.2.2.2.2 _⟩
  · rw [claim_C4_theorem.2.2.1 _ _ ("\x7b\x7d".toList) _ (by decide) rfl]
    exact claim_C4_theorem.2.2.2.2.1 _ _ rfl
  · exact claim_C4_theorem.2.1 _ _ ("\x7b\x7d".toList) (by decide) rfl

/-- C5 (amended): of the fields placed on an output `NewsArticle`, `title`,
`summary`, `relevance` and `source` (defaults included) are passed through the
lenient sanitizer, at maximum lengths 200, 1000, 500 and 100 respectively;
`category`, `url` and `publishedDate` are placed on the output raw (with
defaults `"World"`, `""` and the current timestamp), without sanitization. -/
theorem claim_C5_theorem (now : String) (r : Json) :
    ((normalizeArticle now r).title =
        sanitizeApiTextJ (jsOr (normVal r "title" "Title") (.str "Untitled")) 200 ∧
      inLenientImage (normalizeArticle now r).title) ∧
    ((normalizeArticle now r).summary =
        sanitizeApiTextJ (jsOr (normVal r "summary" "Summary") (.str "No summary available")) 1000 ∧
      inLenientImage (normalizeArticle now r).summary) ∧
    ((normalizeArticle now r).relevance =
        sanitizeApiTextJ (jsOr (normVal r "relevance" "Relevance") (.str "Related to search query")) 500 ∧
      inLenientImage (normalizeArticle now r).relevance) ∧
    ((normalizeArticle now r).source =
        sanitizeApiTextJ (jsOr (normVal r "source" "Source") (.str "Unknown")) 100 ∧
      inLenientImage (normalizeArticle now r).source) ∧
    (normalizeArticle now r).category = jsOr (normVal r "category" "Category") (.str "World") ∧
    (normalizeArticle now r).url = jsOr (normVal r "url" "URL") (.str "") ∧
    (normalizeArticle now r).publishedDate =
      jsOr (normVal r "publishedDate" "PublishedDate") (.str now) :=
  ⟨⟨rfl, sanitizeApiTextJ_inImage _ _⟩, ⟨rfl, sanitizeApiTextJ_inImage _ _⟩,
    ⟨rfl, sanitizeApiTextJ_inImage _ _⟩, ⟨rfl, sanitizeApiTextJ_inImage _ _⟩,
    rfl, rfl, rfl⟩

/-- C5 counterexample: a `category` value containing a control character is
placed on the output verbatim; no input and no maximum length make the lenient
sanitizer produce it, so the category field is not passed through the
sanitizer as the claim states. -/
theorem claim_C5_counterexample :
    (normalizeArticle "2024-01-01T00:00:00Z"
        (.obj [("title", .str "T"), ("category", .str "A\x01B")])).category =
      .str "A\x01B" ∧
    ¬ inLenientImageJ (normalizeArticle "2024-01-01T00:00:00Z"
        (.obj [("title", .str "T"), ("category", .str "A\x01B")])).category := by
  refine ⟨rfl, ?_⟩
  rintro ⟨t, m, heq⟩
  have h1 : Json.str "A\x01B" = Json.str (sanitizeApiText t m) := heq
  have h2 : "A\x01B" = sanitizeApiText t m := by
    injection h1
  have h3 : '\x01' ∈ (sanitizeApiText t m).toList := by
    rw [← h2]
    decide
  have h4 := sanitizeApiText_no_ctrl h3
  simp [isCtrlChar] at h4

/-- C6 (amended): the lenient sanitizer truncates to the caller-specified
maximum length, appending the `...` marker exactly when the trimmed input
exceeds that length; the default maximum is 2000, but the news search passes
explicit maxima — 200 for titles and 1000 (not 2000) for summaries — so every
output summary is the lenient sanitization of the raw summary at maximum
length 1000. -/
theorem claim_C6_theorem :
    (∀ (t : String) (m : Nat), t ≠ "" → (jsTrim t.toList).length > m →
      sanitizeApiText t m = String.mk (jsTrim (collapseWs (stripScriptTags
        (stripCtrl ((jsTrim t.toList).take m ++ "...".toList)))))) ∧
    (∀ (t : String) (m : Nat), t ≠ "" → ¬(jsTrim t.toList).length > m →
      sanitizeApiText t m = String.mk (jsTrim (collapseWs (stripScriptTags
        (stripCtrl (jsTrim t.toList)))))) ∧
    sanitizeApiTextDefaultMax = 2000 ∧
    (sanitizeApiText (String.mk (List.replicate 300 'a')) 200).toList =
      List.replicate 200 'a' ++ "...".toList ∧
    (∀ (now : String) (r : Json),
      (normalizeArticle now r).title =
        sanitizeApiTextJ (jsOr (normVal r "title" "Title") (.str "Untitled")) 200 ∧
      (normalizeArticle now r).summary =
        sanitizeApiTextJ (jsOr (normVal r "summary" "Summary")
          (.str "No summary available")) 1000) := by
  refine ⟨?_, ?_, rfl, by decide, fun now r => ⟨rfl, rfl⟩⟩
  · intro t m ht hm
    rw [sanitizeApiText, if_neg ht]
    simp only [if_pos hm]
  · intro t m ht hm
    rw [sanitizeApiText, if_neg ht]
    simp only [if_neg hm]

theorem claim_C6_witness :
    sanitizeApiText "abcdef" 4 = "abcd..." ∧ sanitizeApiText "abcdef" 10 = "abcdef" := by
  constructor
  · rw [claim_C6_theorem.1 "abcdef" 4 (by decide) (by decide)]
    decide
  · rw [claim_C6_theorem.2.1 "abcdef" 10 (by decide) (by decide)]
    decide

/-- C6 counterexample: a 1001-character summary comes back truncated with the
marker (sanitized at maximum length 1000), not equal to its lenient
sanitization at maximum length 2000 as the claim states. -/
theorem claim_C6_counterexample :
    (normalizeArticle "t"
        (.obj [("summary", .str (String.mk (List.replicate 1001 'a')))])).summary ≠
      sanitizeApiText (String.mk (List.replicate 1001 'a')) 2000 ∧
    (normalizeArticle "t"
        (.obj [("summary", .str (String.mk (List.replicate 1001 'a')))])).summary =
      sanitizeApiText (String.mk (List.replicate 1001 'a')) 1000 := by
  constructor
  · decide
  · rfl

/-- C3: when every candidate carries a nonempty stored vector of the query's
dimension (and candidate identifiers are distinct), ranking succeeds and
returns exactly the truncation to `limit` of the stable descending sort of
the candidates whose similarity is at least the threshold: the result is
non-increasing in similarity, every entry meets the threshold, the length is
`min limit kept`, nothing is dropped when `kept ≤ limit`, and ties appear in
original candidate order. -/
theorem claim_C3_theorem (qe : List ℚ) (cands : List Candidate) (t : ℚ) (lim : Nat)
    (hall : ∀ c ∈ cands, ∀ v, c.embedding = some v → v.length ≠ 0 → v.length = qe.length)
    (hnodup : (cands.map Candidate.cid).Nodup) :
    ∃ res, rank qe cands t lim = .ok res ∧
      res = (List.insertionSort simGE (keptOf qe cands t)).take lim ∧
      List.Pairwise simGE res ∧
      (∀ x ∈ res, x ∈ keptOf qe cands t) ∧
      (∀ x ∈ res, t ≤ x.similarity) ∧
      res.length = min lim (keptOf qe cands t).length ∧
      ((keptOf qe cands t).length ≤ lim → ∀ x ∈ keptOf qe cands t, x ∈ res) ∧
      (∀ a b : Ranked, List.Sublist [a, b] res → b.similarity ≤ a.similarity ∧
        (a.similarity = b.similarity → List.Sublist [a, b] (keptOf qe cands t))) := by
  have hok := rank_ok_of_matching t lim hall
  refine ⟨_, hok, rfl, ?_, ?_, ?_, ?_, ?_, ?_⟩
  · exact List.Pairwise.sublist (List.take_sublist _ _)
      (List.sorted_insertionSort simGE (keptOf qe cands t))
  · intro x hx
    exact (List.perm_insertionSort simGE (keptOf qe cands t)).subset
      ((List.take_sublist _ _).subset hx)
  · intro x hx
    have h1 := (List.perm_insertionSort simGE (keptOf qe cands t)).subset
      ((List.take_sublist _ _).subset hx)
    rw [keptOf] at h1
    have h2 := List.of_mem_filter h1
    exact of_decide_eq_true h2
  · rw [List.length_take, (List.perm_insertionSort simGE (keptOf qe cands t)).length_eq]
  · intro hle x hx
    have hlen : (List.insertionSort simGE (keptOf qe cands t)).length ≤ lim := by
      rw [(List.perm_insertionSort simGE (keptOf qe cands t)).length_eq]
      exact hle
    rw [List.take_of_length_le hlen]
    exact (List.perm_insertionSort simGE (keptOf qe cands t)).symm.subset hx
  · intro a b hsub
    have hsorted : List.Sublist [a, b] (List.insertionSort simGE (keptOf qe cands t)) :=
      hsub.trans (List.take_sublist _ _)
    have hpair : List.Pairwise simGE [a, b] :=
      List.Pairwise.sublist hsorted (List.sorted_insertionSort simGE (keptOf qe cands t))
    have hge : b.similarity ≤ a.similarity := by
      have := List.pairwise_cons.mp hpair
      exact this.1 b (by simp)
    refine ⟨hge, fun heq => ?_⟩
    have hkN : (keptOf qe cands t).Nodup := by
      have h1 : ((keptOf qe cands t).map Ranked.cid).Nodup :=
        (keptOf_cids_sublist qe cands t).nodup hnodup
      exact h1.of_map
    have hsN : (List.insertionSort simGE (keptOf qe cands t)).Nodup :=
      ((List.perm_insertionSort simGE (keptOf qe cands t)).nodup_iff).mpr hkN
    by_cases hab : a = b
    · subst hab
      have hcount := hsorted.count_le a
      rw [List.count_cons_self, List.count_singleton] at hcount
      have hle1 := List.nodup_iff_count_le_one.mp hsN a
      simp at hcount
      omega
    · have haM : a ∈ keptOf qe cands t :=
        (List.perm_insertionSort simGE (keptOf qe cands t)).subset (hsorted.subset (by simp))
      have hbM : b ∈ keptOf qe cands t :=
        (List.perm_insertionSort simGE (keptOf qe cands t)).subset (hsorted.subset (by simp))
      rcases pair_sublist_of_mem haM hbM hab with h1 | h1
      · exact h1
      · exfalso
        have hpair2 : List.Pairwise simGE [b, a] := by
          rw [List.pairwise_pair]
          exact le_of_eq heq
        have h2 := List.sublist_insertionSort hpair2 h1
        exact pair_sublist_antisymm hab hsN hsorted h2

/-- C1 (amended): candidates with no stored vector, or with an empty stored
vector, are excluded from the ranking without any error; but a candidate whose
nonempty stored vector has a length different from the query vector's makes
the whole ranking call fail with the dimension-mismatch error (the pipeline
does not exclude it). -/
theorem claim_C1_theorem :
    (∀ (qe : List ℚ) (cands : List Candidate) (t : ℚ) (lim : Nat),
      (∀ c ∈ cands, ∀ v, c.embedding = some v → v.length ≠ 0 → v.length = qe.length) →
      ∃ res, rank qe cands t lim = .ok res ∧
        ∀ x ∈ res, ∃ c ∈ cands, c.cid = x.cid ∧
          ∃ v, c.embedding = some v ∧ v.length ≠ 0) ∧
    (∀ (qe : List ℚ) (cands : List Candidate) (t : ℚ) (lim : Nat) (c : Candidate) (v : List ℚ),
      c ∈ cands → c.embedding = some v → v.length ≠ 0 → v.length ≠ qe.length →
      rank qe cands t lim = .error "Vectors must have the same length") := by
  constructor
  · intro qe cands t lim hall
    refine ⟨_, rank_ok_of_matching t lim hall, ?_⟩
    intro x hx
    have h1 := (List.perm_insertionSort simGE (keptOf qe cands t)).subset
      ((List.take_sublist _ _).subset hx)
    rw [keptOf] at h1
    have h2 := List.mem_of_mem_filter h1
    rcases List.mem_filterMap.mp h2 with ⟨c, hc, hg⟩
    refine ⟨c, hc, ?_⟩
    split at hg
    · cases hg
    · rename_i v heq
      split at hg
      · cases hg
      · rename_i h0
        cases hg
        exact ⟨rfl, v, heq, h0⟩
  · intro qe cands t lim c v hc hv h0 hlen
    have hstep : rankStep qe c = .error "Vectors must have the same length" := by
      simp [rankStep, hv, h0, cosineSimilarity_mismatch (fun h => hlen h.symm)]
    rw [rank, mapExcept_error_mem hc hstep (fun x _ e' he' => rankStep_error_msg he')]

/-- C1 counterexample: a candidate whose stored vector is nonempty but of the
wrong dimension makes the ranking call fail — it is not excluded, so the claim
that the ranking step never fails because of such candidates is false. -/
theorem claim_C1_counterexample :
    rank [(1 : ℚ)] [⟨7, some [1, 2]⟩] (7/10) 10 =
      .error "Vectors must have the same length" := by
  rfl

theorem ratSqrt_one : ratSqrt (1 : ℚ) = 1 := by
  rw [show (1 : ℚ) = ((1 : Nat) : ℚ) by norm_num, ratSqrt_eval 1 1 (by decide) (by decide)]

theorem ratSqrt_four : ratSqrt (4 : ℚ) = 2 := by
  rw [show (4 : ℚ) = ((4 : Nat) : ℚ) by norm_num, ratSqrt_eval 4 2 (by decide) (by decide)]
  norm_num

theorem ratSqrt_hundred : ratSqrt (100 : ℚ) = 10 := by
  rw [show (100 : ℚ) = ((100 : Nat) : ℚ) by norm_num,
    ratSqrt_eval 100 10 (by decide) (by decide)]
  norm_num

theorem ratSqrt_fourhundred : ratSqrt (400 : ℚ) = 20 := by
  rw [show (400 : ℚ) = ((400 : Nat) : ℚ) by norm_num,
    ratSqrt_eval 400 20 (by decide) (by decide)]
  norm_num

theorem cosSim_exA :
    cosineSimilarity [(1 : ℚ), 0, 0, 0, 0] [9, 3, 3, 1, 0] = .ok (9/10) := by
  have d1 : dotSum [(1 : ℚ), 0, 0, 0, 0] [(1 : ℚ), 0, 0, 0, 0] = 1 := by norm_num [dotSum]
  have d2 : dotSum [(9 : ℚ), 3, 3, 1, 0] [(9 : ℚ), 3, 3, 1, 0] = 100 := by norm_num [dotSum]
  have d3 : dotSum [(1 : ℚ), 0, 0, 0, 0] [(9 : ℚ), 3, 3, 1, 0] = 9 := by norm_num [dotSum]
  rw [cosineSimilarity, if_neg (by decide), d1, d2, d3, ratSqrt_one, ratSqrt_hundred,
    if_neg (by norm_num)]
  norm_num

theorem cosSim_exB :
    cosineSimilarity [(1 : ℚ), 0, 0, 0, 0] [19, 6, 1, 1, 1] = .ok (19/20) := by
  have d1 : dotSum [(1 : ℚ), 0, 0, 0, 0] [(1 : ℚ), 0, 0, 0, 0] = 1 := by norm_num [dotSum]
  have d2 : dotSum [(19 : ℚ), 6, 1, 1, 1] [(19 : ℚ), 6, 1, 1, 1] = 400 := by norm_num [dotSum]
  have d3 : dotSum [(1 : ℚ), 0, 0, 0, 0] [(19 : ℚ), 6, 1, 1, 1] = 19 := by norm_num [dotSum]
  rw [cosineSimilarity, if_neg (by decide), d1, d2, d3, ratSqrt_one, ratSqrt_fourhundred,
    if_neg (by norm_num)]
  norm_num

theorem cosSim_exC :
    cosineSimilarity [(1 : ℚ), 0, 0, 0, 0] [1, 1, 1, 1, 0] = .ok (1/2) := by
  have d1 : dotSum [(1 : ℚ), 0, 0, 0, 0] [(1 : ℚ), 0, 0, 0, 0] = 1 := by norm_num [dotSum]
  have d2 : dotSum [(1 : ℚ), 1, 1, 1, 0] [(1 : ℚ), 1, 1, 1, 0] = 4 := by norm_num [dotSum]
  have d3 : dotSum [(1 : ℚ), 0, 0, 0, 0] [(1 : ℚ), 1, 1, 1, 0] = 1 := by norm_num [dotSum]
  rw [cosineSimilarity, if_neg (by decide), d1, d2, d3, ratSqrt_one, ratSqrt_four,
    if_neg (by norm_num)]
  norm_num

theorem rank_example (lim : Nat) :
    rank [(1 : ℚ), 0, 0, 0, 0]
      [⟨1, some [9, 3, 3, 1, 0]⟩, ⟨2, some [19, 6, 1, 1, 1]⟩, ⟨3, some [1, 1, 1, 1, 0]⟩]
      (7/10) lim =
    .ok ((List.take lim [⟨2, 19/20⟩, ⟨1, 9/10⟩] : List Ranked)) := by
  have sA : rankStep [(1 : ℚ), 0, 0, 0, 0] ⟨1, some [9, 3, 3, 1, 0]⟩ =
      .ok (some ⟨1, 9/10⟩) := by
    simp [rankStep, cosSim_exA]
  have sB : rankStep [(1 : ℚ), 0, 0, 0, 0] ⟨2, some [19, 6, 1, 1, 1]⟩ =
      .ok (some ⟨2, 19/20⟩) := by
    simp [rankStep, cosSim_exB]
  have sC : rankStep [(1 : ℚ), 0, 0, 0, 0] ⟨3, some [1, 1, 1, 1, 0]⟩ =
      .ok (some ⟨3, 1/2⟩) := by
    simp [rankStep, cosSim_exC]
  have hmap : mapExcept (rankStep [(1 : ℚ), 0, 0, 0, 0])
      [⟨1, some [9, 3, 3, 1, 0]⟩, ⟨2, some [19, 6, 1, 1, 1]⟩, ⟨3, some [1, 1, 1, 1, 0]⟩] =
      .ok [some ⟨1, 9/10⟩, some ⟨2, 19/20⟩, some ⟨3, 1/2⟩] := by
    simp [mapExcept, sA, sB, sC]
  have hkept : (([some (⟨1, 9/10⟩ : Ranked), some ⟨2, 19/20⟩, some ⟨3, 1/2⟩].filterMap id).filter
      (fun r => (7 : ℚ)/10 ≤ r.similarity)) = [⟨1, 9/10⟩, ⟨2, 19/20⟩] := by
    norm_num [List.filterMap_cons, List.filter]
  have hsort : List.insertionSort simGE [(⟨1, (9 : ℚ)/10⟩ : Ranked), ⟨2, 19/20⟩] =
      [⟨2, 19/20⟩, ⟨1, 9/10⟩] := by
    norm_num [List.insertionSort, List.orderedInsert, simGE]
  simp only [rank, hmap, hkept, hsort]

theorem claim_C3_witness :
    rank [(1 : ℚ), 0, 0, 0, 0]
      [⟨1, some [9, 3, 3, 1, 0]⟩, ⟨2, some [19, 6, 1, 1, 1]⟩, ⟨3, some [1, 1, 1, 1, 0]⟩]
      (7/10) 10 = .ok [⟨2, 19/20⟩, ⟨1, 9/10⟩] ∧
    rank [(1 : ℚ), 0, 0, 0, 0]
      [⟨1, some [9, 3, 3, 1, 0]⟩, ⟨2, some [19, 6, 1, 1, 1]⟩, ⟨3, some [1, 1, 1, 1, 0]⟩]
      (7/10) 1 = .ok [⟨2, 19/20⟩] ∧
    List.Pairwise simGE [(⟨2, (19 : ℚ)/20⟩ : Ranked), ⟨1, 9/10⟩] ∧
    (∀ x ∈ [(⟨2, (19 : ℚ)/20⟩ : Ranked), ⟨1, 9/10⟩], (7 : ℚ)/10 ≤ x.similarity) := by
  have hall : ∀ c ∈ [(⟨1, some [9, 3, 3, 1, 0]⟩ : Candidate), ⟨2, some [19, 6, 1, 1, 1]⟩,
      ⟨3, some [1, 1, 1, 1, 0]⟩], ∀ v, c.embedding = some v → v.length ≠ 0 →
      v.length = [(1 : ℚ), 0, 0, 0, 0].length := by
    intro c hc v hv h0
    fin_cases hc <;> cases hv <;> rfl
  obtain ⟨res, hok, _, hpw, _, hth, _⟩ :=
    claim_C3_theorem [(1 : ℚ), 0, 0, 0, 0]
      [⟨1, some [9, 3, 3, 1, 0]⟩, ⟨2, some [19, 6, 1, 1, 1]⟩, ⟨3, some [1, 1, 1, 1, 0]⟩]
      (7/10) 10 hall (by decide)
  have hres : res = [⟨2, 19/20⟩, ⟨1, 9/10⟩] := by
    have h1 := (rank_example 10).symm.trans hok
    have h2 := (Except.ok.injEq _ _).mp h1
    simpa using h2.symm
  refine ⟨by simpa using rank_example 10, by simpa using rank_example 1, ?_, ?_⟩
  · rw [← hres]
    exact hpw
  · rw [← hres]
    exact hth

theorem claim_C1_witness :
    (∃ res, rank [(1 : ℚ)] [⟨1, none⟩, ⟨2, some []⟩, ⟨3, some [1]⟩] (7/10) 10 = .ok res ∧
      ∀ x ∈ res, ∃ c ∈ [(⟨1, none⟩ : Candidate), ⟨2, some []⟩, ⟨3, some [1]⟩],
        c.cid = x.cid ∧ ∃ v, c.embedding = some v ∧ v.length ≠ 0) ∧
    rank [(1 : ℚ)] [⟨4, some [1, 2]⟩] (7/10) 10 =
      .error "Vectors must have the same length" := by
  constructor
  · apply claim_C1_theorem.1
    intro c hc v hv h0
    fin_cases hc <;> cases hv <;> first | rfl | (exfalso; exact h0 rfl)
  · exact claim_C1_theorem.2 [(1 : ℚ)] _ (7/10) 10 ⟨4, some [1, 2]⟩ [1, 2]
      (by simp) rfl (by decide) (by decide)

theorem cosSim_single : cosineSimilarity [(1 : ℚ)] [1] = .ok 1 := by
  have d : dotSum [(1 : ℚ)] [(1 : ℚ)] = 1 := by norm_num [dotSum]
  rw [cosineSimilarity, if_neg (by decide), d, ratSqrt_one, if_neg (by norm_num)]
  norm_num

theorem rank_single :
    rank [(1 : ℚ)] [⟨1, some [1]⟩] (7/10) 10 = .ok [⟨1, 1⟩] := by
  have s1 : rankStep [(1 : ℚ)] ⟨1, some [1]⟩ = .ok (some ⟨1, 1⟩) := by
    simp [rankStep, cosSim_single]
  have hmap : mapExcept (rankStep [(1 : ℚ)]) [⟨1, some [1]⟩] = .ok [some ⟨1, 1⟩] := by
    simp [mapExcept, s1]
  have hkept : (([some (⟨1, (1 : ℚ)⟩ : Ranked)].filterMap id).filter
      (fun r => (7 : ℚ)/10 ≤ r.similarity)) = [⟨1, 1⟩] := by
    norm_num [List.filterMap_cons, List.filter]
  simp only [rank, hmap, hkept]
  rfl

theorem searchPosts_concrete :
    searchPosts (some "u1") (some "hello") 10 (7/10) true (fun _ => .ok [1])
      [⟨1, some [1]⟩] = ⟨200, some ⟨"u1", "hello", [(1, 1)]⟩, some [⟨1, 1⟩]⟩ := by
  have hqne : ¬(jsTrim "hello".toList = []) := by decide
  have htq : String.mk (jsTrim "hello".toList) = "hello" := by decide
  have hemb : generateEmbedding true "hello" (fun _ => .ok [1]) = .ok [1] := rfl
  simp only [searchPosts]
  rw [if_neg hqne, htq]
  simp only [hemb, rank_single, List.map_cons, List.map_nil]

theorem searchUsers_concrete :
    searchUsers (some "u1") (some "hello") 10 (7/10) true (fun _ => .ok [1])
      [⟨1, some [1]⟩] = ⟨200, none, some [⟨1, 1⟩]⟩ := by
  have hqne : ¬(jsTrim "hello".toList = []) := by decide
  have htq : String.mk (jsTrim "hello".toList) = "hello" := by decide
  have hemb : generateEmbedding true "hello" (fun _ => .ok [1]) = .ok [1] := rfl
  simp only [searchUsers]
  rw [if_neg hqne, htq]
  simp only [hemb, rank_single]

/-- C7 (amended): the posts search and the news search persist a
`SearchHistoryEntry` exactly when they complete successfully, and the stored
`query` field is the *trimmed raw* caller query (not the sanitized one); the
users search persists no history entry on any path. -/
theorem claim_C7_theorem :
    (∀ (userId query : Option String) (lim : Nat) (t : ℚ) (k : Bool)
        (ep : String → Except String (List ℚ)) (cands : List Candidate),
      ((searchPosts userId query lim t k ep cands).status = 200 →
        (searchPosts userId query lim t k ep cands).saved ≠ none) ∧
      (∀ w, (searchPosts userId query lim t k ep cands).saved = some w →
        (searchPosts userId query lim t k ep cands).status = 200 ∧
        ∃ uid q res, userId = some uid ∧ query = some q ∧
          (searchPosts userId query lim t k ep cands).results = some res ∧
          w = ⟨uid, String.mk (jsTrim q.toList),
            res.map (fun r => (r.cid, r.similarity))⟩)) ∧
    (∀ (userId query : Option String) (lim : Nat) (t : ℚ) (k : Bool)
        (ep : String → Except String (List ℚ)) (cands : List Candidate),
      (searchUsers userId query lim t k ep cands).saved = none) ∧
    (∀ (userId query : Option String) (k : Bool) (provider : Except JsError String)
        (parse : String → Option Json) (now : String),
      ((searchNewsController userId query k provider parse now).status = 200 →
        (searchNewsController userId query k provider parse now).saved ≠ none) ∧
      (∀ w, (searchNewsController userId query k provider parse now).saved = some w →
        (searchNewsController userId query k provider parse now).status = 200 ∧
        ∃ uid q res, userId = some uid ∧ query = some q ∧
          (searchNewsController userId query k provider parse now).results = some res ∧
          w = ⟨uid, String.mk (jsTrim q.toList), res⟩)) := by
  refine ⟨?_, ?_, ?_⟩
  · intro userId query lim t k ep cands
    rcases userId with _ | uid
    · exact ⟨by simp [searchPosts], by simp [searchPosts]⟩
    · rcases query with _ | q
      · exact ⟨by simp [searchPosts], by simp [searchPosts]⟩
      · by_cases hq : jsTrim q.data = []
        · exact ⟨by simp [searchPosts, hq], by simp [searchPosts, hq]⟩
        · rcases he : generateEmbedding k (String.mk (jsTrim q.data)) ep with m | qe
          · exact ⟨by simp [searchPosts, hq, he], by simp [searchPosts, hq, he]⟩
          · rcases hr : rank qe cands t lim with m | res
            · exact ⟨by simp [searchPosts, hq, he, hr], by simp [searchPosts, hq, he, hr]⟩
            · refine ⟨by simp [searchPosts, hq, he, hr], ?_⟩
              intro w hw
              simp [searchPosts, hq, he, hr] at hw
              refine ⟨by simp [searchPosts, hq, he, hr], uid, q, res, rfl, rfl,
                by simp [searchPosts, hq, he, hr], ?_⟩
              simp [hw]
  · intro userId query lim t k ep cands
    rcases userId with _ | uid
    · simp [searchUsers]
    · rcases query with _ | q
      · simp [searchUsers]
      · by_cases hq : jsTrim q.data = []
        · simp [searchUsers, hq]
        · rcases he : generateEmbedding k (String.mk (jsTrim q.data)) ep with m | qe
          · simp [searchUsers, hq, he]
          · rcases hr : rank qe cands t lim with m | res
            · simp [searchUsers, hq, he, hr]
            · simp [searchUsers, hq, he, hr]
  · intro userId query k provider parse now
    rcases userId with _ | uid
    · exact ⟨by simp [searchNewsController], by simp [searchNewsController]⟩
    · rcases query with _ | q
      · exact ⟨by simp [searchNewsController], by simp [searchNewsController]⟩
      · by_cases hq : jsTrim q.data = []
        · exact ⟨by simp [searchNewsController, hq], by simp [searchNewsController, hq]⟩
        · rcases hn : searchNews k (String.mk (jsTrim q.data)) provider parse now with m | res
          · exact ⟨by simp [searchNewsController, hq, hn],
              by simp [searchNewsController, hq, hn]⟩
          · refine ⟨by simp [searchNewsController, hq, hn], ?_⟩
            intro w hw
            simp [searchNewsController, hq, hn] at hw
            refine ⟨by simp [searchNewsController, hq, hn], uid, q, res, rfl, rfl,
              by simp [searchNewsController, hq, hn], ?_⟩
            simp [hw]

/-- C7 counterexample: a successful users search responds 200 with results but
persists no history entry, and a successful news search persists the trimmed
raw query `"<i>hi</i>"`, not the sanitized query `"hi"`. -/
theorem claim_C7_counterexample :
    (searchUsers (some "u1") (some "hello") 10 (7/10) true (fun _ => .ok [1])
        [⟨1, some [1]⟩]).status = 200 ∧
    (searchUsers (some "u1") (some "hello") 10 (7/10) true (fun _ => .ok [1])
        [⟨1, some [1]⟩]).results = some [⟨1, 1⟩] ∧
    (searchUsers (some "u1") (some "hello") 10 (7/10) true (fun _ => .ok [1])
        [⟨1, some [1]⟩]).saved = none ∧
    (searchNewsController (some "u1") (some " <i>hi</i> ") true (.ok "x")
        (fun _ => none) "t").status = 200 ∧
    (searchNewsController (some "u1") (some " <i>hi</i> ") true (.ok "x")
        (fun _ => none) "t").saved = some ⟨"u1", "<i>hi</i>", []⟩ ∧
    sanitizeInput " <i>hi</i> " = .ok "hi" ∧
    ("<i>hi</i>" : String) ≠ "hi" := by
  refine ⟨by rw [searchUsers_concrete], by rw [searchUsers_concrete],
    by rw [searchUsers_concrete], rfl, rfl, by decide, by decide⟩

theorem claim_C7_witness :
    (searchPosts (some "u1") (some "hello") 10 (7/10) true (fun _ => .ok [1])
        [⟨1, some [1]⟩]).status = 200 ∧
    (∃ uid q res, (some "u1" : Option String) = some uid ∧
      (some "hello" : Option String) = some q ∧
      (searchPosts (some "u1") (some "hello") 10 (7/10) true (fun _ => .ok [1])
        [⟨1, some [1]⟩]).results = some res ∧
      (⟨"u1", "hello", [((1 : Nat), (1 : ℚ))]⟩ : EntityHistoryWrite) =
        ⟨uid, String.mk (jsTrim q.toList), res.map (fun r => (r.cid, r.similarity))⟩) ∧
    (searchUsers (some "u1") (some "hello") 10 (7/10) true (fun _ => .ok [1])
        [⟨1, some [1]⟩]).saved = none := by
  have hw : (searchPosts (some "u1") (some "hello") 10 (7/10) true (fun _ => .ok [1])
      [⟨1, some [1]⟩]).saved = some ⟨"u1", "hello", [(1, 1)]⟩ := by
    rw [searchPosts_concrete]
  have h1 := (claim_C7_theorem.1 (some "u1") (some "hello") 10 (7/10) true
    (fun _ => .ok [1]) [⟨1, some [1]⟩]).2 _ hw
  exact ⟨h1.1, h1.2, claim_C7_theorem.2.1 (some "u1") (some "hello") 10 (7/10) true
    (fun _ => .ok [1]) [⟨1, some [1]⟩]⟩

end SemSearch
